import Mathlib

/-!
The timer `crpropa::Clock` of `src/Clock.cpp`.

A shallow embedding of the timer of `src/Clock.cpp` and the properties of it that
the specification states.

Conventions of the embedding.

* Every operating-system query (`gettimeofday`, `QueryPerformanceCounter`,
  `GetTickCount`, `omp_get_thread_num`) is an explicit argument of the operation that
  performs it: the operation is a function of the timer state and of the reading.
* A member function that returns a value is a function to a pair (value, state after).
* `double` is the field of rationals: conversions from integers and the floating-point
  operations are taken as exact.
* Signed integer arithmetic (`time_t`, `suseconds_t`, `LONGLONG`) is arithmetic of `Int`
  (signed overflow is undefined in C++); `/` on integers is truncating division,
  `Int.tdiv`. Unsigned arithmetic (`unsigned long`, `DWORD`: 32 bits on the Windows
  targets) is arithmetic modulo `2^32`, and the conversion to `signed long` is the
  two's-complement reinterpretation of the low 32 bits.
* The facade `Clock` calls `impl->getTime()`, a member only the non-Windows `Impl` has
  (the `WIN32` `Impl` names its read `getSecond`); the facade is embedded over the
  non-Windows `Impl`, and the `WIN32` `Impl` on its own in the namespace `Win32`.
-/

namespace crpropa

/-! ## Wall-clock-pair strategy: `Clock::Impl` of the non-Windows branch -/

/-- The `struct timeval` of `<sys/time.h>`: whole seconds and microseconds. -/
structure timeval where
  tv_sec : Int
  tv_usec : Int
deriving DecidableEq, Repr

/-- The non-Windows `Clock::Impl`: its only member is `startTime`. -/
structure Impl where
  startTime : timeval
deriving DecidableEq, Repr

/-- The member `Impl::reset`: `gettimeofday(&startTime, 0)`; `now` is what
`gettimeofday` delivers. -/
def Impl.reset (_self : Impl) (now : timeval) : Impl :=
  { startTime := now }

/-- The constructor `Impl::Impl()`: it only calls `reset()`. -/
def Impl.new (now : timeval) : Impl :=
  Impl.reset { startTime := { tv_sec := 0, tv_usec := 0 } } now

/-- The member `Impl::getTime`: `currentTime` is what `gettimeofday` delivers at the
read. The member assigns to no field, so the state after is the state before. -/
def Impl.getTime (self : Impl) (currentTime : timeval) : ℚ × Impl :=
  let t : ℚ := ((currentTime.tv_sec - self.startTime.tv_sec : Int) : ℚ)
  let t : ℚ := t + ((currentTime.tv_usec - self.startTime.tv_usec : Int) : ℚ) / 1000000
  (t, self)

/-! ## The facade `Clock` -/

/-- The class `Clock`: it owns one `Impl` through the pointer `impl`. -/
structure Clock where
  impl : Impl
deriving DecidableEq, Repr

/-- The constructor `Clock::Clock()`: `impl = new Impl`. -/
def Clock.new (now : timeval) : Clock :=
  { impl := Impl.new now }

/-- The member `Clock::reset`: `impl->reset()`. -/
def Clock.reset (self : Clock) (now : timeval) : Clock :=
  { impl := self.impl.reset now }

/-- The member `Clock::getSecond`: `return impl->getTime()`. -/
def Clock.getSecond (self : Clock) (now : timeval) : ℚ × Clock :=
  let r := self.impl.getTime now
  (r.1, { impl := r.2 })

/-- The member `Clock::getMillisecond`: `return impl->getTime() * 1000`. -/
def Clock.getMillisecond (self : Clock) (now : timeval) : ℚ × Clock :=
  let r := self.impl.getTime now
  (r.1 * 1000, { impl := r.2 })

/-! ## The per-thread accessor of the OpenMP build -/

/-- The constant `const static int MAX_THREAD = 256`. -/
def MAX_THREAD : Int := 256

/-- The accessor `Clock::getInstance` of the `_OPENMP` branch. `tlsConstructed` tells
whether the function-local static table `tls[MAX_THREAD]` has been constructed by an
earlier call, `i` is what `omp_get_thread_num()` delivers. The result `Except.ok k` stands for the
reference `tls[k].r`; the second component is the state of the static after the call
(the declaration of the static is passed before the test, so it is constructed on a
failing call as well). -/
def Clock.getInstance (_tlsConstructed : Bool) (i : Int) : Except String Int × Bool :=
  if i ≥ MAX_THREAD then
    (Except.error "crpropa::Clock: more than MAX_THREAD threads!", true)
  else
    (Except.ok i, true)

/-- Whether a call ended by raising the exception. -/
def raised {α : Type} : Except String α → Bool
  | Except.error _ => true
  | Except.ok _ => false

/-- The instant of a `timeval` in microseconds. -/
def timeval.micros (t : timeval) : Int :=
  t.tv_sec * 1000000 + t.tv_usec

/-- The microsecond field of a reading of `gettimeofday` lies in `[0, 10^6)`. -/
def timeval.normal (t : timeval) : Prop :=
  0 ≤ t.tv_usec ∧ t.tv_usec < 1000000

instance (t : timeval) : Decidable t.normal := by
  unfold timeval.normal; infer_instance

/-- The order of two readings: by seconds, then by microseconds. -/
def timeval.notLater (a b : timeval) : Prop :=
  a.tv_sec < b.tv_sec ∨ (a.tv_sec = b.tv_sec ∧ a.tv_usec ≤ b.tv_usec)

instance (a b : timeval) : Decidable (a.notLater b) := by
  unfold timeval.notLater; infer_instance

/-! ## Counter-frequency strategy: `Clock::Impl` of the `WIN32` branch -/

namespace Win32

/-- Conversion to `unsigned long` (and `DWORD`), 32 bits wide: reduction modulo `2^32`. -/
def toULong (x : Int) : Int :=
  x % 4294967296

/-- Conversion of an `unsigned long` value to `signed long`: the low 32 bits read in
two's complement. -/
def toSLong (x : Int) : Int :=
  if x % 4294967296 < 2147483648 then x % 4294967296 else x % 4294967296 - 4294967296

/-- What one read of the two time sources delivers: `counter` is the `QuadPart` written by
`QueryPerformanceCounter`, `tick` the `DWORD` returned by `GetTickCount`. -/
structure Reading where
  counter : Int
  tick : Int
deriving DecidableEq, Repr

/-- The `WIN32` `Clock::Impl`, its four members in the order of the source
(`clockFrequency` and `startTime` by their `QuadPart`). -/
structure Impl where
  clockFrequency : Int
  startTick : Int
  prevElapsedTime : Int
  startTime : Int
deriving DecidableEq, Repr

/-- The member `Impl::reset` of the `WIN32` branch. -/
def Impl.reset (self : Impl) (now : Reading) : Impl :=
  { self with startTime := now.counter, startTick := now.tick, prevElapsedTime := 0 }

/-- The constructor `Impl::Impl()` of the `WIN32` branch: `frequency` is what
`QueryPerformanceFrequency` delivers; then `reset()`. -/
def Impl.new (frequency : Int) (now : Reading) : Impl :=
  Impl.reset { clockFrequency := frequency, startTick := 0, prevElapsedTime := 0,
               startTime := 0 } now

/-- The local `elapsedTime` of `getSecond` as first computed:
`currentTime.QuadPart - startTime.QuadPart`. -/
def Impl.elapsedTime (self : Impl) (now : Reading) : Int :=
  now.counter - self.startTime

/-- The local `msecTicks`: `(unsigned long) (1000 * elapsedTime / clockFrequency.QuadPart)`. -/
def Impl.msecTicks (self : Impl) (now : Reading) : Int :=
  toULong ((1000 * self.elapsedTime now).tdiv self.clockFrequency)

/-- The local `elapsedTicks`: `GetTickCount() - startTick`, a `DWORD` difference. -/
def Impl.elapsedTicks (self : Impl) (now : Reading) : Int :=
  toULong (now.tick - self.startTick)

/-- The local `msecOff`: `(signed long) (msecTicks - elapsedTicks)`, the difference being
taken in `unsigned long`. -/
def Impl.msecOff (self : Impl) (now : Reading) : Int :=
  toSLong (toULong (self.msecTicks now - self.elapsedTicks now))

/-- The local `msecAdjustment`:
`std::min(msecOff * clockFrequency.QuadPart / 1000, elapsedTime - prevElapsedTime)`. -/
def Impl.msecAdjustment (self : Impl) (now : Reading) : Int :=
  min ((self.msecOff now * self.clockFrequency).tdiv 1000)
      (self.elapsedTime now - self.prevElapsedTime)

/-- The member `Impl::getSecond` of the `WIN32` branch. -/
def Impl.getSecond (self : Impl) (now : Reading) : ℚ × Impl :=
  let elapsedTime := self.elapsedTime now
  let msecOff := self.msecOff now
  let adjusted : Int × Int :=
    if msecOff < -100 ∨ msecOff > 100 then
      (self.startTime + self.msecAdjustment now, elapsedTime - self.msecAdjustment now)
    else
      (self.startTime, elapsedTime)
  let startTime := adjusted.1
  let elapsedTime := adjusted.2
  let usecTicks := toULong ((1000000 * elapsedTime).tdiv self.clockFrequency)
  ((usecTicks : ℚ) / 1000000,
   { self with startTime := startTime, prevElapsedTime := elapsedTime })

end Win32

/-! ## Truncating division -/

/-- The truncating remainder changes sign with the dividend. -/
theorem tmod_neg_left (a f : Int) : a.tmod f = -((-a).tmod f) := by
  rw [Int.tmod_def, Int.tmod_def, Int.neg_tdiv]
  ring

/-- The truncating quotient by a positive divisor: the remainder is smaller than the
divisor in absolute value, and quotient and remainder have the sign of the dividend. -/
theorem tdiv_spec (a f : Int) (hf : 0 < f) :
    ∃ r : Int, f * a.tdiv f + r = a ∧ -f < r ∧ r < f ∧
      (0 ≤ a → 0 ≤ r ∧ 0 ≤ a.tdiv f) ∧ (a ≤ 0 → r ≤ 0 ∧ a.tdiv f ≤ 0) := by
  have hneg := tmod_neg_left a f
  have hlt := Int.tmod_lt_of_pos a hf
  have hlt' := Int.tmod_lt_of_pos (-a) hf
  refine ⟨a.tmod f, Int.tdiv_add_tmod a f, ?_, hlt, ?_, ?_⟩
  · rcases le_total 0 a with h | h
    · have := Int.tmod_nonneg f h
      omega
    · omega
  · intro h
    exact ⟨Int.tmod_nonneg f h, Int.tdiv_nonneg h hf.le⟩
  · intro h
    have h' : 0 ≤ -a := by omega
    have h1 := Int.tmod_nonneg f h'
    have h2 := Int.tdiv_nonneg h' hf.le
    rw [Int.neg_tdiv] at h2
    constructor <;> omega

/-- Truncating division by a positive divisor is monotone in the dividend. -/
theorem tdiv_mono (a b f : Int) (hf : 0 < f) (hab : a ≤ b) : a.tdiv f ≤ b.tdiv f := by
  obtain ⟨ra, ha, ha1, ha2, ha3, ha4⟩ := tdiv_spec a f hf
  obtain ⟨rb, hb, hb1, hb2, hb3, hb4⟩ := tdiv_spec b f hf
  by_contra hcon
  have hq : b.tdiv f + 1 ≤ a.tdiv f := by omega
  have hm := mul_le_mul_of_nonneg_left hq hf.le
  have hra : ra < 0 := by nlinarith
  have hrb : 0 < rb := by nlinarith
  have ha' : a ≤ 0 := by
    by_contra h
    have := (ha3 (by omega)).1
    omega
  have hb' : 0 ≤ b := by
    by_contra h
    have := (hb4 (by omega)).1
    omega
  have := (ha4 ha').2
  have := (hb3 hb').2
  omega

/-- The arithmetic of one drift correction. With frequency `f ≥ 1000`, elapsed count `e`,
tick count `t ≥ 0` and divergence `d = 1000 * e / f - t`, the count corrected by
`d * f / 1000` gives a millisecond count between `t - 2` and `t + 1`, and at least `t - 1`
when `e ≥ 0`. -/
theorem corrected_msec_bounds (e f t d : Int) (hf : 1000 ≤ f) (ht : 0 ≤ t)
    (hd : d = (1000 * e).tdiv f - t) :
    t - 2 ≤ (1000 * (e - (d * f).tdiv 1000)).tdiv f ∧
    (1000 * (e - (d * f).tdiv 1000)).tdiv f ≤ t + 1 ∧
    (0 ≤ e → t - 1 ≤ (1000 * (e - (d * f).tdiv 1000)).tdiv f) := by
  have hf0 : (0 : Int) < f := by omega
  obtain ⟨q, hq, hq1, hq2, hq3, _⟩ := tdiv_spec (1000 * e) f hf0
  obtain ⟨r, hr, hr1, hr2, _, _⟩ := tdiv_spec (d * f) 1000 (by norm_num)
  obtain ⟨q', hq', hq1', hq2', hq3', hq4'⟩ :=
    tdiv_spec (1000 * (e - (d * f).tdiv 1000)) f hf0
  generalize (1000 * e).tdiv f = M at hq hd
  generalize (d * f).tdiv 1000 = A at hr hq' hq3' hq4' ⊢
  generalize (1000 * (e - A)).tdiv f = M' at hq' hq3' hq4' ⊢
  subst hd
  have key : f * (M' - t) = q + r - q' := by linarith
  refine ⟨?_, ?_, ?_⟩
  · by_contra hcon
    have h3 : 0 ≤ f * (t - 3 - M') := mul_nonneg hf0.le (by omega)
    nlinarith
  · by_contra hcon
    have h2 : 0 ≤ f * (M' - t - 2) := mul_nonneg hf0.le (by omega)
    have hneg : q' < 0 := by nlinarith
    have hle : 1000 * (e - A) ≤ 0 := by
      by_contra hpos
      have := (hq3' (by omega)).1
      omega
    have := (hq4' hle).2
    omega
  · intro he
    have hq0 := (hq3 (by omega)).1
    by_contra hcon
    have h2 : 0 ≤ f * (t - 2 - M') := mul_nonneg hf0.le (by omega)
    nlinarith

/-! ## The counter-frequency strategy: what a read does to the state -/

namespace Win32

/-- The state after a read whose divergence is within 100 ms: only `prevElapsedTime`
is assigned. -/
theorem Impl.getSecond_state_plain (s : Impl) (r : Reading)
    (h : ¬ (s.msecOff r < -100 ∨ s.msecOff r > 100)) :
    (s.getSecond r).2 = { s with prevElapsedTime := s.elapsedTime r } := by
  simp only [Impl.getSecond, h, if_false]

/-- The state after a read whose divergence exceeds 100 ms: `startTime` is advanced by
`msecAdjustment` and `prevElapsedTime` is the elapsed count less `msecAdjustment`. -/
theorem Impl.getSecond_state_adjust (s : Impl) (r : Reading)
    (h : s.msecOff r < -100 ∨ s.msecOff r > 100) :
    (s.getSecond r).2 = { s with startTime := s.startTime + s.msecAdjustment r,
                                 prevElapsedTime := s.elapsedTime r - s.msecAdjustment r } := by
  simp only [Impl.getSecond, h, if_true]

/-- The value a read returns is computed from the elapsed count it stores. -/
theorem Impl.getSecond_value_eq (s : Impl) (r : Reading) :
    (s.getSecond r).1
      = ((toULong ((1000000 * (s.getSecond r).2.prevElapsedTime).tdiv
          s.clockFrequency) : Int) : ℚ)
        / 1000000 := by
  simp only [Impl.getSecond]

/-- A read assigns neither `clockFrequency` nor `startTick`. -/
theorem Impl.getSecond_frame (s : Impl) (r : Reading) :
    (s.getSecond r).2.clockFrequency = s.clockFrequency ∧
    (s.getSecond r).2.startTick = s.startTick := by
  simp only [Impl.getSecond, and_self]

/-- After a read the stored elapsed count is the counter reading less the stored
reference instant. -/
theorem Impl.getSecond_prev (s : Impl) (r : Reading) :
    (s.getSecond r).2.prevElapsedTime = r.counter - (s.getSecond r).2.startTime := by
  by_cases h : s.msecOff r < -100 ∨ s.msecOff r > 100
  · rw [Impl.getSecond_state_adjust s r h]
    simp only [Impl.elapsedTime]
    omega
  · rw [Impl.getSecond_state_plain s r h]
    simp only [Impl.elapsedTime]

end Win32

/-! ## The accessor: the bound on the thread index -/

/-- C1: in the OpenMP build, for every thread index `i ≥ 0`, `Clock::getInstance` raises
the error "more than MAX_THREAD threads" if and only if `i ≥ 256`; for `i < 256` it returns
an instance (the slot `i`) and does not raise; and the outcome is the same whatever the
state of the static table, that is on every call with that index. -/
theorem getInstance_raises_iff (tlsConstructed : Bool) (i : Int) (_hi : 0 ≤ i) :
    (raised (Clock.getInstance tlsConstructed i).1 = true ↔ i ≥ 256) ∧
    (i ≥ 256 → (Clock.getInstance tlsConstructed i).1
        = Except.error "crpropa::Clock: more than MAX_THREAD threads!") ∧
    (i < 256 → (Clock.getInstance tlsConstructed i).1 = Except.ok i ∧
        raised (Clock.getInstance tlsConstructed i).1 = false) ∧
    (∀ earlier : Bool,
        (Clock.getInstance earlier i).1 = (Clock.getInstance tlsConstructed i).1) := by
  unfold Clock.getInstance MAX_THREAD
  by_cases h : i ≥ 256
  · simp [h, raised]
  · have h' : i < 256 := lt_of_not_ge h
    simp [h, h', raised]

/-- The claim C1 at the first index that is refused, `i = 256`. -/
theorem getInstance_raises_iff_witness :
    (0 : Int) ≤ 256 ∧
    ((raised (Clock.getInstance false 256).1 = true ↔ (256 : Int) ≥ 256) ∧
     ((256 : Int) ≥ 256 → (Clock.getInstance false 256).1
        = Except.error "crpropa::Clock: more than MAX_THREAD threads!") ∧
     ((256 : Int) < 256 → (Clock.getInstance false 256).1 = Except.ok 256 ∧
        raised (Clock.getInstance false 256).1 = false) ∧
     (∀ earlier : Bool,
        (Clock.getInstance earlier 256).1 = (Clock.getInstance false 256).1)) :=
  ⟨by decide, getInstance_raises_iff false 256 (by decide)⟩

/-- C2: in the OpenMP build, for thread indices `i` and `j` in `[0, 256)`,
`Clock::getInstance` called with index `i` returns the slot `i` of the table, an index
inside the table of `MAX_THREAD` slots, and the instances returned for `i` and for `j`
(by any two calls) are the same if and only if `i = j`. -/
theorem getInstance_slot (c c' : Bool) (i j : Int)
    (hi : 0 ≤ i ∧ i < 256) (hj : 0 ≤ j ∧ j < 256) :
    (Clock.getInstance c i).1 = Except.ok i ∧
    (∀ k : Int, (Clock.getInstance c i).1 = Except.ok k → 0 ≤ k ∧ k < MAX_THREAD) ∧
    ((Clock.getInstance c i).1 = (Clock.getInstance c' j).1 ↔ i = j) := by
  have hi' : ¬ i ≥ 256 := not_le.mpr hi.2
  have hj' : ¬ j ≥ 256 := not_le.mpr hj.2
  have ei : (Clock.getInstance c i).1 = Except.ok i := by
    simp [Clock.getInstance, MAX_THREAD, hi']
  have ej : (Clock.getInstance c' j).1 = Except.ok j := by
    simp [Clock.getInstance, MAX_THREAD, hj']
  rw [ei, ej]
  refine ⟨rfl, ?_, ?_⟩
  · intro k hk
    have hik : i = k := by injection hk
    subst hik
    exact hi
  · constructor
    · intro h
      injection h
    · intro h
      rw [h]

/-- The claim C2 at the two ends of the table, `i = 0` and `j = 255`. -/
theorem getInstance_slot_witness :
    (Clock.getInstance false 0).1 = Except.ok 0 ∧
    (∀ k : Int, (Clock.getInstance false 0).1 = Except.ok k → 0 ≤ k ∧ k < MAX_THREAD) ∧
    ((Clock.getInstance false 0).1 = (Clock.getInstance true 255).1 ↔ (0 : Int) = 255) :=
  getInstance_slot false true 0 255 (by decide) (by decide)

/-! ## The facade and the wall-clock-pair strategy -/

/-- The value `Impl::getTime` returns is the difference of the two instants, taken in
microseconds, divided by `10^6`. -/
theorem Impl.getTime_micros (self : Impl) (now : timeval) :
    (self.getTime now).1 = ((now.micros - self.startTime.micros : Int) : ℚ) / 1000000 := by
  simp only [Impl.getTime, timeval.micros]
  push_cast
  ring

/-- The facade hands on what `Impl::getTime` returns. -/
theorem Clock.getSecond_val (c : Clock) (now : timeval) :
    (c.getSecond now).1 = (c.impl.getTime now).1 := rfl

/-- For readings with microsecond fields in `[0, 10^6)` the order by seconds, then
microseconds, is the order of the instants. -/
theorem timeval.micros_le_of_notLater (a b : timeval) (ha : a.normal) (hb : b.normal)
    (h : a.notLater b) : a.micros ≤ b.micros := by
  unfold timeval.normal at ha hb
  unfold timeval.notLater at h
  unfold timeval.micros
  omega

/-- C3: for every timer state and every clock reading, `Clock::getMillisecond` on that
state and reading is exactly 1000 times `Clock::getSecond` on the same state and
reading. -/
theorem getMillisecond_eq (c : Clock) (now : timeval) :
    (c.getMillisecond now).1 = 1000 * (c.getSecond now).1 ∧
    (c.getMillisecond now).1 = (c.getSecond now).1 * 1000 := by
  simp only [Clock.getMillisecond, Clock.getSecond]
  exact ⟨by ring, trivial⟩

/-- C4: in the wall-clock-pair strategy, for every start reading and every current reading,
`Impl::getTime` returns `(now.sec - start.sec) + (now.usec - start.usec) / 10^6`, which is
the difference of the two instants in microseconds divided by `10^6`, whatever the sign
of the microsecond difference. -/
theorem getTime_eq (self : Impl) (now : timeval) :
    (self.getTime now).1
      = ((now.tv_sec : ℚ) - (self.startTime.tv_sec : ℚ))
        + ((now.tv_usec : ℚ) - (self.startTime.tv_usec : ℚ)) / 1000000 ∧
    (self.getTime now).1
      = (((now.tv_sec * 1000000 + now.tv_usec)
          - (self.startTime.tv_sec * 1000000 + self.startTime.tv_usec) : Int) : ℚ)
        / 1000000 := by
  simp only [Impl.getTime]
  constructor
  · push_cast
    ring
  · push_cast
    ring

/-- C5: in the wall-clock-pair strategy, for a fixed start reading and two current
readings `now1`, `now2` with microsecond fields in `[0, 10^6)` and `now1` not later than
`now2` (by seconds, then microseconds), two reads with no reset in between satisfy
`getSecond(now1) ≤ getSecond(now2)`; in particular, when `now1` is the start reading
itself, the read at `now2` is non-negative. -/
theorem getSecond_monotone (c : Clock) (now1 now2 : timeval)
    (h1 : now1.normal) (h2 : now2.normal) (hle : now1.notLater now2) :
    ((c.getSecond now1).2.getSecond now2).1 ≥ (c.getSecond now1).1 ∧
    (c.getSecond now1).1 ≤ (c.getSecond now2).1 ∧
    (c.impl.startTime = now1 → 0 ≤ (c.getSecond now2).1) := by
  have hm := timeval.micros_le_of_notLater now1 now2 h1 h2 hle
  have key : (c.getSecond now1).1 ≤ (c.getSecond now2).1 := by
    rw [Clock.getSecond_val, Clock.getSecond_val, Impl.getTime_micros, Impl.getTime_micros]
    apply div_le_div_of_nonneg_right _ (by norm_num)
    exact_mod_cast (by omega : now1.micros - c.impl.startTime.micros
      ≤ now2.micros - c.impl.startTime.micros)
  refine ⟨key, key, ?_⟩
  intro hs
  rw [Clock.getSecond_val, Impl.getTime_micros, hs]
  apply div_nonneg _ (by norm_num)
  exact_mod_cast (by omega : 0 ≤ now2.micros - now1.micros)

/-- The claim C5 for a timer started at 10 s + 900000 us and read at 11 s + 100000 us and
at 12 s + 0 us: the microsecond difference of the first read is negative. -/
theorem getSecond_monotone_witness :
    (timeval.mk 11 100000).normal ∧ (timeval.mk 12 0).normal ∧
    (timeval.mk 11 100000).notLater (timeval.mk 12 0) ∧
    (((Clock.mk (Impl.mk (timeval.mk 10 900000))).getSecond (timeval.mk 11 100000)).2.getSecond
        (timeval.mk 12 0)).1
      ≥ ((Clock.mk (Impl.mk (timeval.mk 10 900000))).getSecond (timeval.mk 11 100000)).1 ∧
    ((Clock.mk (Impl.mk (timeval.mk 10 900000))).getSecond (timeval.mk 11 100000)).1
      ≤ ((Clock.mk (Impl.mk (timeval.mk 10 900000))).getSecond (timeval.mk 12 0)).1 ∧
    ((Clock.mk (Impl.mk (timeval.mk 10 900000))).impl.startTime = timeval.mk 11 100000 →
      0 ≤ ((Clock.mk (Impl.mk (timeval.mk 10 900000))).getSecond (timeval.mk 12 0)).1) :=
  ⟨by decide, by decide, by decide,
    getSecond_monotone (Clock.mk (Impl.mk (timeval.mk 10 900000))) (timeval.mk 11 100000)
      (timeval.mk 12 0) (by decide) (by decide) (by decide)⟩

/-- C6: for every timer state and every clock reading `t`, `Clock::reset` at reading `t`
makes `t` the reference instant, a `getSecond` read at the same reading `t` returns
exactly 0, and a later read is the time from `t` to the read, the same whatever state the
timer had before the reset. -/
theorem reset_then_getSecond (c : Clock) (t : timeval) :
    (c.reset t).impl.startTime = t ∧
    ((c.reset t).getSecond t).1 = 0 ∧
    (∀ now : timeval, ((c.reset t).getSecond now).1
        = ((now.micros - t.micros : Int) : ℚ) / 1000000) ∧
    (∀ (c' : Clock) (now : timeval),
        ((c'.reset t).getSecond now).1 = ((c.reset t).getSecond now).1) := by
  refine ⟨rfl, ?_, ?_, ?_⟩
  · simp [Clock.getSecond, Clock.reset, Impl.reset, Impl.getTime]
  · intro now
    rw [Clock.getSecond_val, Impl.getTime_micros]
    rfl
  · intro c' now
    rfl

/-! ## The counter-frequency strategy -/

/-- C7: in the counter-frequency strategy with counter frequency `> 0`, for two
consecutive reads with no reset between them, the second counter reading not smaller than
the first and any tick readings: the correction of the second read is never larger than
`elapsedTime - prevElapsedTime`, so the elapsed tick count the second read ends with is
`≥` the count the first read stored in `prevElapsedTime`; hence, the integer arithmetic
being exact (the microsecond counts of the two reads fit `unsigned long`), the seconds
reported by the second read are not below those reported by the first. -/
theorem win32_no_backward_jump (s : Win32.Impl) (r1 r2 : Win32.Reading)
    (hf : 0 < s.clockFrequency) (hc : r1.counter ≤ r2.counter) :
    (s.getSecond r1).2.msecAdjustment r2
      ≤ (s.getSecond r1).2.elapsedTime r2 - (s.getSecond r1).2.prevElapsedTime ∧
    (s.getSecond r1).2.prevElapsedTime
      ≤ ((s.getSecond r1).2.getSecond r2).2.prevElapsedTime ∧
    (0 ≤ (1000000 * (s.getSecond r1).2.prevElapsedTime).tdiv s.clockFrequency →
     (1000000 * ((s.getSecond r1).2.getSecond r2).2.prevElapsedTime).tdiv s.clockFrequency
        < 4294967296 →
     (s.getSecond r1).1 ≤ ((s.getSecond r1).2.getSecond r2).1) := by
  have hadj : (s.getSecond r1).2.msecAdjustment r2
      ≤ (s.getSecond r1).2.elapsedTime r2 - (s.getSecond r1).2.prevElapsedTime := by
    unfold Win32.Impl.msecAdjustment
    exact min_le_right _ _
  have hprev := Win32.Impl.getSecond_prev s r1
  have hmono : (s.getSecond r1).2.prevElapsedTime
      ≤ ((s.getSecond r1).2.getSecond r2).2.prevElapsedTime := by
    by_cases h : (s.getSecond r1).2.msecOff r2 < -100 ∨ (s.getSecond r1).2.msecOff r2 > 100
    · rw [Win32.Impl.getSecond_state_adjust _ r2 h]
      simp only
      omega
    · rw [Win32.Impl.getSecond_state_plain _ r2 h]
      simp only [Win32.Impl.elapsedTime]
      omega
  refine ⟨hadj, hmono, ?_⟩
  intro hlo hhi
  have hfr := (Win32.Impl.getSecond_frame s r1).1
  have hdiv := tdiv_mono _ _ s.clockFrequency hf
    (by omega : 1000000 * (s.getSecond r1).2.prevElapsedTime
      ≤ 1000000 * ((s.getSecond r1).2.getSecond r2).2.prevElapsedTime)
  rw [Win32.Impl.getSecond_value_eq s r1, Win32.Impl.getSecond_value_eq _ r2, hfr]
  apply div_le_div_of_nonneg_right _ (by norm_num)
  unfold Win32.toULong
  exact_mod_cast (by omega :
    (1000000 * (s.getSecond r1).2.prevElapsedTime).tdiv s.clockFrequency % 4294967296
      ≤ (1000000 * ((s.getSecond r1).2.getSecond r2).2.prevElapsedTime).tdiv
          s.clockFrequency % 4294967296)

/-- The claim C7 for a timer of frequency 1000 reset at counter 0 and tick 0, read at
counter 500 and tick 100 (a correction of 400 ticks) and then at counter 700 and tick 250
(no correction): the elapsed counts are 100 and 300, the seconds 1/10 and 3/10. -/
theorem win32_no_backward_jump_witness :
    (0 < (Win32.Impl.mk 1000 0 0 0).clockFrequency ∧
     (Win32.Reading.mk 500 100).counter ≤ (Win32.Reading.mk 700 250).counter ∧
     0 ≤ (1000000 * ((Win32.Impl.mk 1000 0 0 0).getSecond
        (Win32.Reading.mk 500 100)).2.prevElapsedTime).tdiv 1000 ∧
     (1000000 * (((Win32.Impl.mk 1000 0 0 0).getSecond
        (Win32.Reading.mk 500 100)).2.getSecond
          (Win32.Reading.mk 700 250)).2.prevElapsedTime).tdiv 1000 < 4294967296) ∧
    (((Win32.Impl.mk 1000 0 0 0).getSecond (Win32.Reading.mk 500 100)).2.prevElapsedTime
      ≤ (((Win32.Impl.mk 1000 0 0 0).getSecond (Win32.Reading.mk 500 100)).2.getSecond
          (Win32.Reading.mk 700 250)).2.prevElapsedTime ∧
     ((Win32.Impl.mk 1000 0 0 0).getSecond (Win32.Reading.mk 500 100)).1
      ≤ (((Win32.Impl.mk 1000 0 0 0).getSecond (Win32.Reading.mk 500 100)).2.getSecond
          (Win32.Reading.mk 700 250)).1) :=
  have h := win32_no_backward_jump (Win32.Impl.mk 1000 0 0 0) (Win32.Reading.mk 500 100)
    (Win32.Reading.mk 700 250) (by decide) (by decide)
  ⟨⟨by decide, by decide, by decide, by decide⟩, h.2.1, h.2.2 (by decide) (by decide)⟩

/-- In the counter-frequency strategy with frequency `> 0`, a read whose divergence
`msecOff` is above 100 ms and whose elapsed count is not below `prevElapsedTime` leaves
`startTime` not smaller than it was: in this direction the adjustment is forwards. -/
theorem startTime_forward_of_positive (s : Win32.Impl) (r : Win32.Reading)
    (hf : 0 < s.clockFrequency) (h : s.msecOff r > 100)
    (hprev : s.prevElapsedTime ≤ s.elapsedTime r) :
    s.startTime ≤ (s.getSecond r).2.startTime := by
  rw [Win32.Impl.getSecond_state_adjust s r (Or.inr h)]
  have hnn : 0 ≤ (s.msecOff r * s.clockFrequency).tdiv 1000 :=
    Int.tdiv_nonneg (mul_nonneg (by omega) hf.le) (by norm_num)
  have hadj : 0 ≤ s.msecAdjustment r := by
    unfold Win32.Impl.msecAdjustment
    exact le_min hnn (by omega)
  simp only
  omega

/-- C8, the code at a read that breaks the claim: a timer of frequency 1000 constructed at
counter 0 and tick 0 and read at counter 0 and tick 200 has a divergence `msecOff` of
-200 ms, beyond 100 ms, so the read corrects; the adjustment is the smaller of
`-200 * 1000 / 1000 = -200` and `elapsedTime - prevElapsedTime = 0`, that is -200, and
`startTime` goes from 0 back to -200, where the claim and the comment of the source on
this step ("Adjust the starting time forwards") have it not smaller than before. -/
theorem startTime_moves_backward :
    Win32.Impl.new 1000 (Win32.Reading.mk 0 0) = Win32.Impl.mk 1000 0 0 0 ∧
    ((Win32.Impl.mk 1000 0 0 0).msecOff (Win32.Reading.mk 0 200) < -100 ∨
      (Win32.Impl.mk 1000 0 0 0).msecOff (Win32.Reading.mk 0 200) > 100) ∧
    (Win32.Impl.mk 1000 0 0 0).msecOff (Win32.Reading.mk 0 200) = -200 ∧
    (Win32.Impl.mk 1000 0 0 0).msecAdjustment (Win32.Reading.mk 0 200) = -200 ∧
    ((Win32.Impl.mk 1000 0 0 0).getSecond (Win32.Reading.mk 0 200)).2.startTime = -200 ∧
    ¬ ((Win32.Impl.mk 1000 0 0 0).startTime
        ≤ ((Win32.Impl.mk 1000 0 0 0).getSecond (Win32.Reading.mk 0 200)).2.startTime) := by
  decide

/-- C9 fails as stated: in the counter-frequency strategy a timer of frequency 1000 reset
at counter 0 and tick 0 and read at counter 5 and tick 5 (no divergence) ends the read with
`prevElapsedTime = 5`, a state other than the one before the read. -/
theorem win32_read_changes_state :
    Win32.Impl.new 1000 (Win32.Reading.mk 0 0) = Win32.Impl.mk 1000 0 0 0 ∧
    ((Win32.Impl.mk 1000 0 0 0).getSecond (Win32.Reading.mk 5 5)).2
      = Win32.Impl.mk 1000 0 5 0 ∧
    ((Win32.Impl.mk 1000 0 0 0).getSecond (Win32.Reading.mk 5 5)).2
      ≠ Win32.Impl.mk 1000 0 0 0 := by
  decide

/-- C9 as amended: in the wall-clock-pair strategy a read causes no state change, the
state after `getSecond` or `getMillisecond` is the state before it. In the
counter-frequency strategy a read leaves `clockFrequency` and `startTick` as they were,
stores in `prevElapsedTime` the elapsed count it ends with (the counter reading less the
`startTime` it leaves), and leaves `startTime` as it was when the divergence is within
100 ms. -/
theorem read_state_effect (c : Clock) (now : timeval) (s : Win32.Impl) (r : Win32.Reading) :
    (c.impl.getTime now).2 = c.impl ∧
    (c.getSecond now).2 = c ∧
    (c.getMillisecond now).2 = c ∧
    ((c.getSecond now).2.getSecond now).1 = (c.getSecond now).1 ∧
    (s.getSecond r).2.clockFrequency = s.clockFrequency ∧
    (s.getSecond r).2.startTick = s.startTick ∧
    (s.getSecond r).2.prevElapsedTime = r.counter - (s.getSecond r).2.startTime ∧
    (¬ (s.msecOff r < -100 ∨ s.msecOff r > 100) →
      (s.getSecond r).2.startTime = s.startTime) := by
  refine ⟨rfl, rfl, rfl, rfl, (Win32.Impl.getSecond_frame s r).1,
    (Win32.Impl.getSecond_frame s r).2, Win32.Impl.getSecond_prev s r, ?_⟩
  intro h
  rw [Win32.Impl.getSecond_state_plain s r h]

/-- C10 fails as stated: a timer of frequency 1001 reset at counter 1 and tick 0 and read at
counter 0 and tick 101. No conversion loses anything, the divergence is -101 ms and the
adjustment is the divergence term, -101 ticks (the other argument of the minimum is -1);
the corrected elapsed count is 100 ticks, that is 99 ms, and the tick count is 101 ms:
they differ by 2 ms. -/
theorem corrected_count_off_by_two :
    Win32.Impl.new 1001 (Win32.Reading.mk 1 0) = Win32.Impl.mk 1001 0 0 1 ∧
    1000 ≤ (Win32.Impl.mk 1001 0 0 1).clockFrequency ∧
    (Win32.Impl.mk 1001 0 0 1).msecOff (Win32.Reading.mk 0 101)
      = (1000 * (Win32.Impl.mk 1001 0 0 1).elapsedTime (Win32.Reading.mk 0 101)).tdiv 1001
        - (Win32.Impl.mk 1001 0 0 1).elapsedTicks (Win32.Reading.mk 0 101) ∧
    (Win32.Impl.mk 1001 0 0 1).msecOff (Win32.Reading.mk 0 101) = -101 ∧
    (Win32.Impl.mk 1001 0 0 1).msecAdjustment (Win32.Reading.mk 0 101)
      = ((Win32.Impl.mk 1001 0 0 1).msecOff (Win32.Reading.mk 0 101) * 1001).tdiv 1000 ∧
    (Win32.Impl.mk 1001 0 0 1).msecAdjustment (Win32.Reading.mk 0 101)
      < (Win32.Impl.mk 1001 0 0 1).elapsedTime (Win32.Reading.mk 0 101)
        - (Win32.Impl.mk 1001 0 0 1).prevElapsedTime ∧
    (1000 * ((Win32.Impl.mk 1001 0 0 1).getSecond
        (Win32.Reading.mk 0 101)).2.prevElapsedTime).tdiv 1001 = 99 ∧
    (Win32.Impl.mk 1001 0 0 1).elapsedTicks (Win32.Reading.mk 0 101) = 101 ∧
    ¬ ((Win32.Impl.mk 1001 0 0 1).elapsedTicks (Win32.Reading.mk 0 101) - 1
        ≤ (1000 * ((Win32.Impl.mk 1001 0 0 1).getSecond
            (Win32.Reading.mk 0 101)).2.prevElapsedTime).tdiv 1001) := by
  decide

/-- C10 as amended: in the counter-frequency strategy with frequency `≥ 1000` and exact
integer arithmetic (`msecOff` is the exact difference of the two millisecond counts), at a
read whose divergence `msecOff` exceeds 100 ms in absolute value and whose adjustment is
the divergence term `msecOff * frequency / 1000`, the millisecond count of the corrected
elapsed ticks, `1000 * elapsedTime / frequency`, lies between the tick count less 2 and the
tick count plus 1, and is at least the tick count less 1 when the elapsed count before the
correction is not negative; so the divergence of an immediately repeated read at the same
readings is within 100 ms and that read applies no correction and changes no state. -/
theorem correction_restores_agreement (s : Win32.Impl) (r : Win32.Reading)
    (hf : 1000 ≤ s.clockFrequency)
    (hexact : s.msecOff r
      = (1000 * s.elapsedTime r).tdiv s.clockFrequency - s.elapsedTicks r)
    (hoff : s.msecOff r < -100 ∨ s.msecOff r > 100)
    (hadj : s.msecAdjustment r = (s.msecOff r * s.clockFrequency).tdiv 1000) :
    s.elapsedTicks r - 2
      ≤ (1000 * (s.getSecond r).2.prevElapsedTime).tdiv s.clockFrequency ∧
    (1000 * (s.getSecond r).2.prevElapsedTime).tdiv s.clockFrequency
      ≤ s.elapsedTicks r + 1 ∧
    (0 ≤ s.elapsedTime r → s.elapsedTicks r - 1
      ≤ (1000 * (s.getSecond r).2.prevElapsedTime).tdiv s.clockFrequency) ∧
    ¬ ((s.getSecond r).2.msecOff r < -100 ∨ (s.getSecond r).2.msecOff r > 100) ∧
    ((s.getSecond r).2.getSecond r).2 = (s.getSecond r).2 := by
  have ht : 0 ≤ s.elapsedTicks r :=
    Int.emod_nonneg _ (by norm_num)
  have hst := Win32.Impl.getSecond_state_adjust s r hoff
  have hprev : (s.getSecond r).2.prevElapsedTime
      = s.elapsedTime r - (s.msecOff r * s.clockFrequency).tdiv 1000 := by
    rw [hst, hadj]
  have hb := corrected_msec_bounds (s.elapsedTime r) s.clockFrequency (s.elapsedTicks r)
    (s.msecOff r) hf ht hexact
  rw [← hprev] at hb
  have hfr := Win32.Impl.getSecond_frame s r
  have hel : (s.getSecond r).2.elapsedTime r = (s.getSecond r).2.prevElapsedTime := by
    rw [Win32.Impl.getSecond_prev s r]
    rfl
  have hticks : (s.getSecond r).2.elapsedTicks r = s.elapsedTicks r := by
    unfold Win32.Impl.elapsedTicks
    rw [hfr.2]
  have hoff' : (s.getSecond r).2.msecOff r
      = (1000 * (s.getSecond r).2.prevElapsedTime).tdiv s.clockFrequency
        - s.elapsedTicks r := by
    have hlt : s.elapsedTicks r < 4294967296 := Int.emod_lt_of_pos _ (by norm_num)
    unfold Win32.Impl.msecOff Win32.Impl.msecTicks
    rw [hticks, hel, hfr.1]
    unfold Win32.toSLong Win32.toULong
    split_ifs <;> omega
  have hno : ¬ ((s.getSecond r).2.msecOff r < -100 ∨ (s.getSecond r).2.msecOff r > 100) := by
    rw [hoff']
    omega
  refine ⟨hb.1, hb.2.1, hb.2.2, hno, ?_⟩
  rw [Win32.Impl.getSecond_state_plain _ r hno, hel]

/-- The amended claim C10 for a timer of frequency 1000 reset at counter 0 and tick 0 and
read at counter 500 and tick 100: the divergence is 400 ms, the adjustment 400 ticks, and
the corrected elapsed count is 100 ticks, 100 ms as the tick count. -/
theorem correction_restores_agreement_witness :
    (1000 ≤ (Win32.Impl.mk 1000 0 0 0).clockFrequency ∧
     (Win32.Impl.mk 1000 0 0 0).msecOff (Win32.Reading.mk 500 100)
      = (1000 * (Win32.Impl.mk 1000 0 0 0).elapsedTime (Win32.Reading.mk 500 100)).tdiv 1000
        - (Win32.Impl.mk 1000 0 0 0).elapsedTicks (Win32.Reading.mk 500 100) ∧
     (Win32.Impl.mk 1000 0 0 0).msecOff (Win32.Reading.mk 500 100) > 100 ∧
     (Win32.Impl.mk 1000 0 0 0).msecAdjustment (Win32.Reading.mk 500 100)
      = ((Win32.Impl.mk 1000 0 0 0).msecOff (Win32.Reading.mk 500 100) * 1000).tdiv 1000 ∧
     0 ≤ (Win32.Impl.mk 1000 0 0 0).elapsedTime (Win32.Reading.mk 500 100)) ∧
    ((Win32.Impl.mk 1000 0 0 0).elapsedTicks (Win32.Reading.mk 500 100) - 1
      ≤ (1000 * ((Win32.Impl.mk 1000 0 0 0).getSecond
          (Win32.Reading.mk 500 100)).2.prevElapsedTime).tdiv 1000 ∧
     (1000 * ((Win32.Impl.mk 1000 0 0 0).getSecond
          (Win32.Reading.mk 500 100)).2.prevElapsedTime).tdiv 1000
      ≤ (Win32.Impl.mk 1000 0 0 0).elapsedTicks (Win32.Reading.mk 500 100) + 1 ∧
     (((Win32.Impl.mk 1000 0 0 0).getSecond (Win32.Reading.mk 500 100)).2.getSecond
        (Win32.Reading.mk 500 100)).2
      = ((Win32.Impl.mk 1000 0 0 0).getSecond (Win32.Reading.mk 500 100)).2) :=
  have h := correction_restores_agreement (Win32.Impl.mk 1000 0 0 0)
    (Win32.Reading.mk 500 100) (by decide) (by decide) (by decide) (by decide)
  ⟨⟨by decide, by decide, by decide, by decide, by decide⟩,
    h.2.2.1 (by decide), h.2.1, h.2.2.2.2⟩

end crpropa
